import Mathlib

/-!
Shallow embedding of the Nascent data-quality rule engine.

The repository evaluates a tabular dataset of daily futures bars (one row per
Date × Symbol with Open/High/Low/Close/Volume/Open Interest, all int64 columns
per `quality_checks.EXPECTED_COLUMNS`) against a registry of data-quality
rules and aggregates the per-rule violations into per-row severity counts.

A pandas DataFrame is embedded as a `List Row`; `Row.idx` is the row's label
in the frame's default RangeIndex (its original position).  Rule functions
that filter the frame return the kept rows; their pandas `.index` is the list
of kept `idx` values.  Rules with synthetic outputs (`missing_dates`,
`check_schema`) build fresh frames whose RangeIndex is `0, 1, …`, which is
what `df.index.isin(...)` in the aggregator sees.

Numeric columns are embedded as `Int` (the data is int64); derived statistics
(medians, quantiles, percentage changes, thresholds) are computed in `ℚ`,
which models the exact values float64 arithmetic is intended to produce.
-/

section DataQuality

attribute [local semireducible] Rat.mul Rat.add Rat.sub Rat.inv

/-- One bar of the futures dataset.  `idx` is the row's position/label in the
DataFrame's default RangeIndex; the remaining fields are the dataset columns
(`OpenInterest` embeds the "Open Interest" column). -/
structure Row where
  idx : Nat
  Date : Int
  Symbol : String
  Open : Int
  High : Int
  Low : Int
  Close : Int
  Volume : Int
  OpenInterest : Int
deriving DecidableEq, Repr

/-- Severity tier of a rule (the string values "critical" / "major" / "minor"
used by both severity dictionaries in the source). -/
inductive Severity where
  | critical
  | major
  | minor
deriving DecidableEq, Repr

namespace QualityChecks

/-- Number of rows of `df` sharing the (Date, Symbol) key `(d, s)`. -/
def keyCount (df : List Row) (d : Int) (s : String) : Nat :=
  (df.filter (fun r => decide (r.Date = d ∧ r.Symbol = s))).length

/-- Embeds `quality_checks.duplicated_rows`: `df.duplicated(subset=["Date",
"Symbol"], keep=False)` marks a row iff its (Date, Symbol) key occurs at
least twice in the whole frame, so all copies are returned. -/
def duplicated_rows (df : List Row) : List Row :=
  df.filter (fun r => decide (2 ≤ keyCount df r.Date r.Symbol))

/-- Embeds `quality_checks.ohlc_integrity_violations`: rows where
`Low > High`, or `Close`/`Open` lie outside `[Low, High]`. -/
def ohlc_integrity_violations (df : List Row) : List Row :=
  df.filter (fun r =>
    decide (r.Low > r.High ∨ r.Close > r.High ∨ r.Close < r.Low ∨
      r.Open > r.High ∨ r.Open < r.Low))

/-- Embeds `quality_checks.high_low_inversion`: rows where `High < Low`. -/
def high_low_inversion (df : List Row) : List Row :=
  df.filter (fun r => decide (r.High < r.Low))

/-- Embeds `quality_checks.flatline_rows`: rows with Open = High = Low =
Close, split into (Volume == 0, Volume > 0). -/
def flatline_rows (df : List Row) : List Row × List Row :=
  let flat := df.filter (fun r =>
    decide (r.Open = r.High ∧ r.Open = r.Low ∧ r.Open = r.Close))
  (flat.filter (fun r => decide (r.Volume = 0)),
   flat.filter (fun r => decide (0 < r.Volume)))

/-- Embeds `quality_checks.stagnant_price`: flat price rows with Volume 0. -/
def stagnant_price (df : List Row) : List Row :=
  (flatline_rows df).1

/-- Embeds `quality_checks.flat_price_anomaly`: flat price rows with
Volume > 0 filtered to Volume ≥ `min_volume`. -/
def flat_price_anomaly (df : List Row) (min_volume : Int) : List Row :=
  ((flatline_rows df).2).filter (fun r => decide (min_volume ≤ r.Volume))

/-- Embeds `quality_checks.negative_numeric`: rows where any numeric column
is negative.  `df.select_dtypes("number")` selects every int64 column,
including `Date`. -/
def negative_numeric (df : List Row) : List Row :=
  df.filter (fun r =>
    decide (r.Date < 0 ∨ r.Open < 0 ∨ r.High < 0 ∨ r.Low < 0 ∨
      r.Close < 0 ∨ r.Volume < 0 ∨ r.OpenInterest < 0))

/-- Lexicographic comparison of character lists by code point, embedding
Python's string ordering (used by `sort_values` on the Symbol column). -/
def charsLt : List Char → List Char → Bool
  | [], [] => false
  | [], _ :: _ => true
  | _ :: _, [] => false
  | a :: as, b :: bs =>
    if a.toNat < b.toNat then true
    else if b.toNat < a.toNat then false
    else charsLt as bs

/-- String comparison by code points (Python `<` on `str`). -/
def symLt (a b : String) : Bool :=
  charsLt a.data b.data

/-- Row order used by `df.sort_values(["Symbol", "Date"])`. -/
def rowLe (a b : Row) : Prop :=
  symLt a.Symbol b.Symbol = true ∨ (a.Symbol = b.Symbol ∧ a.Date ≤ b.Date)

instance : DecidableRel rowLe := fun a b => by
  unfold rowLe; infer_instance

/-- Embeds `df.sort_values(["Symbol", "Date"])`.  pandas' default quicksort
leaves the order of rows with equal keys unspecified; we use a stable sort.
The rules below consume the sorted frame only through per-symbol consecutive
Close differences, which do not depend on the order of ties in our uses. -/
def sort_values (df : List Row) : List Row :=
  List.insertionSort rowLe df

/-- Pairs each row of the (sorted) frame with the previous row of the same
Symbol, embedding `df_sorted.groupby("Symbol")["Close"].diff()` /
`.pct_change()`: within a symbol group pandas differences consecutive rows in
frame order, and the first row of a group gets NaN (`none`). -/
def annotatePrev (seen : List Row) : List Row → List (Row × Option Row)
  | [] => []
  | r :: rest =>
    (r, (seen.filter (fun p => decide (p.Symbol = r.Symbol))).getLast?) ::
      annotatePrev (seen ++ [r]) rest

/-- Embeds the `zero_vol_price_move` component of
`quality_checks.volume_anomalies`: rows of the sorted frame where
Volume == 0 and the absolute per-symbol Close difference is > 0 (a NaN
difference on a group's first row compares False). -/
def volume_anomalies_zero (df : List Row) : List Row :=
  ((annotatePrev [] (sort_values df)).filter (fun rp =>
    match rp.2 with
    | none => false
    | some p => decide (rp.1.Volume = 0) && decide (0 < |rp.1.Close - p.Close|))).map (·.1)

/-- Embeds `quality_checks.pct_change_outliers`: rows of the sorted frame
where the absolute per-symbol percentage Close change exceeds `threshold`.
A NaN change (group's first row, or 0/0) compares False; a division of a
nonzero change by a zero previous Close is ±inf in pandas, whose absolute
value exceeds every finite threshold. -/
def pct_change_outliers (df : List Row) (threshold : ℚ) : List Row :=
  ((annotatePrev [] (sort_values df)).filter (fun rp =>
    match rp.2 with
    | none => false
    | some p =>
      if p.Close = 0 then decide (rp.1.Close ≠ 0)
      else decide (threshold < |((rp.1.Close : ℚ) - (p.Close : ℚ)) / (p.Close : ℚ)|))).map (·.1)

/-- Linear interpolation of a sorted list of values at a fractional
position, the interpolation rule behind pandas `Series.quantile` (default
`interpolation='linear'`) and `Series.median`. -/
def interpQ (s : List Int) (pos : ℚ) : ℚ :=
  ((s.getD (⌊pos⌋).toNat 0 : Int) : ℚ) +
    (pos - (⌊pos⌋ : ℚ)) *
      (((s.getD (⌈pos⌉).toNat 0 : Int) : ℚ) - ((s.getD (⌊pos⌋).toNat 0 : Int) : ℚ))

/-- Embeds `Series.quantile(q)` on an int64 series: sort the values and
linearly interpolate at position `q * (n - 1)`. -/
def quantileQ (l : List Int) (q : ℚ) : ℚ :=
  interpQ (List.insertionSort (· ≤ ·) l) (q * ((l.length : ℚ) - 1))

/-- Embeds `Series.median()` (pandas median = quantile 1/2 with linear
interpolation: the middle element, or the mean of the two middles). -/
def medianQ (l : List Int) : ℚ :=
  quantileQ l (1/2)

/-- First-occurrence list of the distinct symbols of the frame.  pandas
`df.groupby("Symbol")` iterates the groups in sorted key order; using
first-occurrence order instead permutes the concatenated per-group blocks
but not their contents, and no claim below depends on the block order. -/
def symbolKeys (df : List Row) : List String :=
  (df.map (·.Symbol)).dedup

/-- Body of the per-symbol loop of `quality_checks.iqr_price_outliers`:
rows of the group whose Close lies outside
`[q1 - multiplier*iqr, q3 + multiplier*iqr]` where q1/q3 are the 0.25/0.75
Close quantiles of the group and `iqr = q3 - q1`. -/
def iqrGroupOutliers (grp : List Row) (multiplier : ℚ) : List Row :=
  let q1 := quantileQ (grp.map (·.Close)) (1/4)
  let q3 := quantileQ (grp.map (·.Close)) (3/4)
  let iqr := q3 - q1
  let lower := q1 - multiplier * iqr
  let upper := q3 + multiplier * iqr
  grp.filter (fun r => decide ((r.Close : ℚ) < lower) || decide (upper < (r.Close : ℚ)))

/-- Embeds `quality_checks.iqr_price_outliers`: concatenation of the
per-symbol-group outliers. -/
def iqr_price_outliers (df : List Row) (multiplier : ℚ) : List Row :=
  (symbolKeys df).flatMap (fun sym =>
    iqrGroupOutliers (df.filter (fun r => decide (r.Symbol = sym))) multiplier)

/-- Strictly positive volumes of a group, the series
`grp.loc[grp["Volume"] > 0, "Volume"]`. -/
def posVolumes (grp : List Row) : List Int :=
  (grp.filter (fun r => decide (0 < r.Volume))).map (·.Volume)

/-- Body of the per-symbol loop of the `extreme_volume_rows` component of
`quality_checks.volume_anomalies`: the median of the group's strictly
positive volumes; if that series is empty its median is NaN and the symbol
is skipped (`continue`), as it is under the explicit `median_vol == 0`
fallback; otherwise rows with `Volume > median_vol * factor` are flagged. -/
def extremeGroupRows (grp : List Row) (factor : ℚ) : List Row :=
  let pv := posVolumes grp
  if pv = [] then []
  else
    let median_vol := medianQ pv
    if median_vol = 0 then []
    else grp.filter (fun r => decide (median_vol * factor < (r.Volume : ℚ)))

/-- Embeds the `extreme_volume_rows` concatenation of
`quality_checks.volume_anomalies` over the symbol groups. -/
def volume_anomalies_extreme (df : List Row) (factor : ℚ) : List Row :=
  (symbolKeys df).flatMap (fun sym =>
    extremeGroupRows (df.filter (fun r => decide (r.Symbol = sym))) factor)

/-- Embeds `quality_checks.volume_anomalies`, returning
`(zero_vol_price_move, extreme_volume_rows_df)`. -/
def volume_anomalies (df : List Row) (factor : ℚ) : List Row × List Row :=
  (volume_anomalies_zero df, volume_anomalies_extreme df factor)

/-- Embeds `quality_checks.check_oi`: rows with negative Open Interest or
Open Interest above `spike_factor` times the median of the whole column. -/
def check_oi (df : List Row) (spike_factor : ℚ) : List Row :=
  let median := if df = [] then 0 else medianQ (df.map (·.OpenInterest))
  df.filter (fun r =>
    decide (r.OpenInterest < 0) || decide (median * spike_factor < (r.OpenInterest : ℚ)))

/-- Embeds `quality_checks.check_schema`.  The embedding's `Row` carries
exactly the expected columns with the expected int64/object dtypes, so the
schema report (one record per missing column or dtype mismatch) is always
empty here, as it is for every well-formed dataset of this repository. -/
def check_schema (_df : List Row) : List (String × String × String × String) :=
  []

/-- One nanosecond-per-unit day step: `pd.Timestamp`/`pd.date_range` applied
to python integers interpret them as nanoseconds since the epoch, and the
`freq="D"` step is 86400e9 nanoseconds. -/
def DAY_NS : Int := 86400000000000

/-- Embeds `pd.date_range(a, b, freq="D")` on integer (nanosecond) bounds:
the timestamps `a, a + DAY_NS, a + 2*DAY_NS, …` that are ≤ `b`. -/
def date_range (a b : Int) : List Int :=
  if a ≤ b then
    (List.range ((b - a).toNat / DAY_NS.toNat + 1)).map (fun k => a + DAY_NS * k)
  else []

/-- Embeds `quality_checks.missing_dates`: for each symbol, the set
difference between the full `pd.date_range(df.Date.min(), df.Date.max(),
freq="D")` calendar and the symbol's own dates, returned as (Symbol,
MissingDate) records.  Python iterates the `missing` set in unspecified
order; we keep calendar order, which has the same members and count.
On the repository's int64 `Date` column both sides of the difference are
nanosecond timestamps (see `date_range`). -/
def missing_dates (df : List Row) : List (String × Int) :=
  match (df.map (·.Date)).min?, (df.map (·.Date)).max? with
  | some lo, some hi =>
    (symbolKeys df).flatMap (fun sym =>
      let present := (df.filter (fun r => decide (r.Symbol = sym))).map (·.Date)
      ((date_range lo hi).filter (fun d => decide (d ∉ present))).map (fun d => (sym, d)))
  | _, _ => []

/-- Embeds `quality_checks.DEFAULT_SEVERITIES` (the severity table the batch
aggregator `compute_flags` reads). -/
def DEFAULT_SEVERITIES : List (String × Severity) :=
  [("Duplicate row", .major),
   ("Missing date", .minor),
   ("OHLC range violation", .critical),
   ("Stagnant price", .major),
   ("Flat price anomaly", .minor),
   ("Zero-volume with move", .major),
   ("Extreme volume outlier", .minor),
   ("Day-over-day jump", .minor),
   ("Absolute price bounds (IQR)", .minor),
   ("High < Low inversion", .critical),
   ("Negative numeric", .critical),
   ("Schema", .critical),
   ("Open interest", .minor)]

/-- Embeds `quality_checks.DESCRIPTIONS` (rule name ➜ UI description).  The
keys are verbatim; non-ASCII punctuation inside the description values is
ASCII-simplified, which no claim inspects. -/
def DESCRIPTIONS : List (String × String) :=
  [("Duplicate row", "Ensure each (Date, Symbol) appears only once."),
   ("Missing date", "Compare a symbol dates to the calendar to flag gaps."),
   ("OHLC range violation", "Flag rows where High < Low or Open/Close lie outside the range."),
   ("Stagnant price", "Price flat and Volume = 0 (likely closed or no trades)."),
   ("Flat price anomaly", "Price flat while Volume >= threshold (configurable)."),
   ("Zero-volume with move", "Alert when price changes but Volume = 0."),
   ("Extreme volume outlier", "Volume exceeds N x median for a symbol (configurable)."),
   ("Day-over-day jump", "Close changes more than threshold percent between consecutive days."),
   ("Absolute price bounds (IQR)", "Prices that are unusually high or low for the symbol."),
   ("High < Low inversion", "Explicit test where reported High is less than Low."),
   ("Negative numeric", "Any negative price, volume, or open-interest fields."),
   ("Schema", "Assert expected columns and dtypes."),
   ("Open interest", "Flag negative OI or extreme spikes.")]

/-- Embeds `quality_checks.CHECK_FUNCTIONS` (rule name ➜ callable).  Each
callable is wrapped to expose the pandas `.index` of its result, which is
what the aggregators consume: the filtering rules return the kept rows'
original labels, while `missing_dates` and `check_schema` build fresh frames
whose RangeIndex is `0, …, len-1`.  A Python rule can raise (e.g. a KeyError
on a missing column), so a registry callable is embedded as returning
`Except`; every rule of this registry is total and returns `Except.ok`. -/
def CHECK_FUNCTIONS : List (String × (List Row → Except String (List Nat))) :=
  [("Duplicate row", fun df => .ok ((duplicated_rows df).map (·.idx))),
   ("Missing date", fun df => .ok (List.range (missing_dates df).length)),
   ("OHLC range violation", fun df => .ok ((ohlc_integrity_violations df).map (·.idx))),
   ("Stagnant price", fun df => .ok ((stagnant_price df).map (·.idx))),
   ("Flat price anomaly", fun df => .ok ((flat_price_anomaly df 1).map (·.idx))),
   ("Zero-volume with move", fun df => .ok (((volume_anomalies df 10).1).map (·.idx))),
   ("Extreme volume outlier", fun df => .ok (((volume_anomalies df 10).2).map (·.idx))),
   ("Day-over-day jump", fun df => .ok ((pct_change_outliers df (1/2)).map (·.idx))),
   ("Absolute price bounds (IQR)", fun df => .ok ((iqr_price_outliers df 3).map (·.idx))),
   ("High < Low inversion", fun df => .ok ((high_low_inversion df).map (·.idx))),
   ("Negative numeric", fun df => .ok ((negative_numeric df).map (·.idx))),
   ("Schema", fun df => .ok (List.range (check_schema df).length)),
   ("Open interest", fun df => .ok ((check_oi df 10).map (·.idx)))]

end QualityChecks

namespace Config

/-- Embeds `app/utils/config.DEFAULT_SEVERITIES`, the severity table the
Streamlit dashboard seeds its session severity map from.  It disagrees with
`quality_checks.DEFAULT_SEVERITIES` on several rules; in particular
"Duplicate row" is critical here but major there. -/
def DEFAULT_SEVERITIES : List (String × Severity) :=
  [("Duplicate row", .critical),
   ("Missing date", .major),
   ("OHLC range violation", .critical),
   ("Stagnant price", .minor),
   ("Flat price anomaly", .major),
   ("Zero-volume with move", .critical),
   ("Extreme volume outlier", .minor),
   ("Day-over-day jump", .minor),
   ("Absolute price bounds (IQR)", .minor),
   ("High < Low inversion", .critical),
   ("Negative numeric", .critical),
   ("Schema", .critical),
   ("Open interest", .minor)]

end Config

/-- One row of the aggregated flag matrix: the original row, the boolean
flag per rule (in registry order, keyed by rule name), and the three derived
severity count columns. -/
structure FlaggedRow where
  row : Row
  ruleFlags : List (String × Bool)
  critical_flags : Nat
  major_flags : Nat
  minor_flags : Nat
deriving DecidableEq, Repr

namespace CalcFlagsFull

/-- Turns a rule invocation's outcome into the flagged index list, embedding
the per-rule `try: flagged_idx = func(df).index / except Exception:
flagged_idx = pd.Index([])` of `scripts/calc_flags_full.compute_flags`. -/
def resultIndex : Except String (List Nat) → List Nat
  | Except.error _ => []
  | Except.ok l => l

/-- Per-severity flag count of one row, embedding `flags_df[checks_sev]
.sum(axis=1)` where `checks_sev = [n for n, s in qc.DEFAULT_SEVERITIES
.items() if s == sev and n in flags_df.columns]`: iterate the severity
table, keep the names of the requested tier, and sum those rows' boolean
columns (a name without a column contributes nothing, exactly like the
`n in flags_df.columns` guard). -/
def sevCountAssoc (sevs : List (String × Severity)) (sev : Severity)
    (flags : List (String × Bool)) : Nat :=
  ((sevs.filter (fun ns => decide (ns.2 = sev))).map (fun ns =>
    match flags.lookup ns.1 with
    | some true => 1
    | _ => 0)).sum

/-- Embeds `scripts/calc_flags_full.compute_flags`: run every registry rule
over the frame (a raising rule contributes an empty index), build one
boolean column per rule via `df.index.isin(flagged_idx)`, and add the three
severity count columns.  The registry and severity table are explicit
parameters; the script itself passes `qc.CHECK_FUNCTIONS` and
`qc.DEFAULT_SEVERITIES`. -/
def compute_flags (rules : List (String × (List Row → Except String (List Nat))))
    (sevs : List (String × Severity)) (df : List Row) : List FlaggedRow :=
  let cols := rules.map (fun nf => (nf.1, resultIndex (nf.2 df)))
  df.map (fun r =>
    let flags := cols.map (fun c => (c.1, decide (r.idx ∈ c.2)))
    { row := r
      ruleFlags := flags
      critical_flags := sevCountAssoc sevs Severity.critical flags
      major_flags := sevCountAssoc sevs Severity.major flags
      minor_flags := sevCountAssoc sevs Severity.minor flags })

end CalcFlagsFull

namespace AppMain

/-- Per-severity flag count of one row in `app/main.py`: `checks_sev = [n
for n in selected if severity_map[n] == sev]` then `flags_df[checks_sev]
.sum(axis=1)`.  The session severity map is total on the rule names (it is
seeded from `DEFAULT_SEVERITIES` over every rule), embedded as a total
function; rule names are distinct, so summing the matching columns is
counting the matching true flags. -/
def sevCountMap (sevMap : String → Severity) (sev : Severity)
    (flags : List (String × Bool)) : Nat :=
  (flags.filter (fun nb => nb.2 && decide (sevMap nb.1 = sev))).length

/-- Embeds the flag-matrix construction of `app/main.py` (the
`flag_columns` loop plus the three severity count columns): for each
selected rule, a boolean column `df_view.index.isin(res.index)`, then per
severity the sum of the selected columns of that tier.  The dashboard loop
calls each rule directly, without the batch script's `try`/`except`, so the
rules here are the already-computed index functions. -/
def flags_df (selected : List (String × (List Row → List Nat)))
    (sevMap : String → Severity) (df : List Row) : List FlaggedRow :=
  let cols := selected.map (fun nf => (nf.1, nf.2 df))
  df.map (fun r =>
    let flags := cols.map (fun c => (c.1, decide (r.idx ∈ c.2)))
    { row := r
      ruleFlags := flags
      critical_flags := sevCountMap sevMap Severity.critical flags
      major_flags := sevCountMap sevMap Severity.major flags
      minor_flags := sevCountMap sevMap Severity.minor flags })

/-- Embeds `union_mask = flags_df.any(axis=1)` of `app/main.py`: the row-wise
`any` runs over the boolean rule columns and the three integer severity
count columns (a nonzero count is truthy). -/
def union_mask (fr : FlaggedRow) : Bool :=
  fr.ruleFlags.any (·.2) || decide (0 < fr.critical_flags) ||
    decide (0 < fr.major_flags) || decide (0 < fr.minor_flags)

/-- Embeds `cleaned_df = df_view.loc[~union_mask]` of `app/main.py`. -/
def cleaned_df (frs : List FlaggedRow) : List Row :=
  (frs.filter (fun fr => !union_mask fr)).map (·.row)

/-- Embeds the dashboard evaluation loop of `app/main.py` (`for name, func
in param_wrappers.items(): idx = func(df_view).index; …`): the rules are
invoked one after another with no `try`/`except`, so the first rule that
raises aborts the whole evaluation. -/
def evalLoop (rules : List (String × (List Row → Except String (List Nat))))
    (df : List Row) : Except String (List (String × List Bool)) :=
  rules.mapM (fun nf => do
    let idxs ← nf.2 df
    pure (nf.1, df.map (fun r => decide (r.idx ∈ idxs))))

/-- Embeds `_sev_level` of `app/main.py`: worst severity of a row from its
three flag counts. -/
def _sev_level (critical_flags major_flags minor_flags : Nat) : String :=
  if critical_flags > 0 then "critical"
  else if major_flags > 0 then "major"
  else if minor_flags > 0 then "minor"
  else "none"

end AppMain

namespace EdaUtils

/-- Embeds the extreme component of `eda_utils.volume_anomalies`, the older
copy of the rule used by the "Outliers and Volume" dashboard page: the
per-symbol threshold is `grp["Volume"].median() * factor` — the median of
ALL the group's volumes, zeros included, with no skip for all-zero groups
(a group from `groupby` is never empty, so the median is never NaN). -/
def volume_anomalies_extreme (df : List Row) (factor : ℚ) : List Row :=
  (QualityChecks.symbolKeys df).flatMap (fun sym =>
    let grp := df.filter (fun r => decide (r.Symbol = sym))
    grp.filter (fun r =>
      decide (QualityChecks.medianQ (grp.map (·.Volume)) * factor < (r.Volume : ℚ))))

end EdaUtils

/-- A rule callable that raises, modelling e.g. a `KeyError` when a column
the rule needs is absent from the uploaded frame. -/
def raisingRule : List Row → Except String (List Nat) :=
  fun _ => Except.error "KeyError"

/-- The index-returning "Duplicate row" callable, as selected in
`app/main.py`'s `param_wrappers`. -/
def dupRule : List Row → List Nat :=
  fun df => (QualityChecks.duplicated_rows df).map (·.idx)

/-- A severity map assigning every rule the critical tier (a possible
session severity map of the dashboard). -/
def allCritical : String → Severity := fun _ => Severity.critical

/-- Single-rule selection used by the flag-matrix witness. -/
def selW : List (String × (List Row → List Nat)) := [("Duplicate row", dupRule)]

/-- The flag-matrix row produced for the first row of `dupDF` when only
"Duplicate row" is selected and every rule is mapped to critical. -/
def frW : FlaggedRow := ⟨⟨0, 1, "A", 1, 2, 1, 2, 3, 4⟩, [("Duplicate row", true)], 1, 0, 0⟩

/-! Concrete datasets used by the end-to-end scenario, the counterexamples
and the witnesses.  Rows are `⟨idx, Date, Symbol, Open, High, Low, Close,
Volume, OpenInterest⟩`. -/

/-- End-to-end scenario dataset of the spec: two identical rows
`(20240101, "CL", 100, 101, 99, 100, 0, 1000)`. -/
def scenarioDF : List Row :=
  [⟨0, 20240101, "CL", 100, 101, 99, 100, 0, 1000⟩,
   ⟨1, 20240101, "CL", 100, 101, 99, 100, 0, 1000⟩]

/-- Dataset with one symbol present exactly on days 1, 3, 5 of the global
calendar bound [1, 5] (the `Date` column is integral, as everywhere in this
repository). -/
def gapDF : List Row :=
  [⟨0, 1, "CL", 100, 101, 99, 100, 10, 50⟩,
   ⟨1, 3, "CL", 100, 101, 99, 100, 10, 50⟩,
   ⟨2, 5, "CL", 100, 101, 99, 100, 10, 50⟩]

/-- Dataset for the volume counterexample: one symbol whose volumes are
`0, 0, 5, 5` — every strictly positive volume equals 5. -/
def volDF : List Row :=
  [⟨0, 1, "A", 10, 10, 10, 10, 0, 0⟩,
   ⟨1, 2, "A", 10, 10, 10, 10, 0, 0⟩,
   ⟨2, 3, "A", 10, 10, 10, 10, 5, 0⟩,
   ⟨3, 4, "A", 10, 10, 10, 10, 5, 0⟩]

/-- Dataset with a duplicated (Date, Symbol) key (1, "A") and a unique key
(2, "B"). -/
def dupDF : List Row :=
  [⟨0, 1, "A", 1, 2, 1, 2, 3, 4⟩,
   ⟨1, 1, "A", 5, 6, 5, 6, 7, 8⟩,
   ⟨2, 2, "B", 1, 2, 1, 2, 3, 4⟩]

/-- First row of `dupDF` (its key (1, "A") is duplicated). -/
def dupRow : Row := ⟨0, 1, "A", 1, 2, 1, 2, 3, 4⟩

/-- Dataset with one inverted bar (High 1 < Low 2). -/
def invDF : List Row :=
  [⟨0, 1, "A", 1, 1, 2, 1, 3, 4⟩]

/-- Dataset whose single symbol has Closes 10, 10, 10, 100: the last row is
an IQR outlier at multipliers 1 and 2. -/
def iqrDF : List Row :=
  [⟨0, 1, "A", 10, 10, 10, 10, 1, 1⟩,
   ⟨1, 2, "A", 10, 10, 10, 10, 1, 1⟩,
   ⟨2, 3, "A", 10, 10, 10, 10, 1, 1⟩,
   ⟨3, 4, "A", 100, 100, 100, 100, 1, 1⟩]

/-- Consecutive integers from `lo` to `hi` (the calendar of integral days). -/
def intCalendar (lo hi : Int) : List Int :=
  if lo ≤ hi then (List.range ((hi - lo).toNat + 1)).map (fun k => lo + (k : Int)) else []

/-- Modelled from the spec: "for each Symbol, compute the full daily calendar
from the dataset's global min to max Date; a (Symbol, Date) pair is missing
if the symbol has no row on that date".  On the repository's integral `Date`
column the daily calendar is the consecutive integers from min to max; this
definition is the intended behaviour against which `missing_dates` is
compared. -/
def missing_dates_spec (df : List Row) : List (String × Int) :=
  match (df.map (·.Date)).min?, (df.map (·.Date)).max? with
  | some lo, some hi =>
    (QualityChecks.symbolKeys df).flatMap (fun sym =>
      let present := (df.filter (fun r => decide (r.Symbol = sym))).map (·.Date)
      ((intCalendar lo hi).filter (fun d => decide (d ∉ present))).map (fun d => (sym, d)))
  | _, _ => []

/-! Claim theorems. -/

/-- C2: on the dataset `gapDF` whose symbol "CL" has rows exactly on days
1, 3, 5 of the global bound [1, 5], the source's `missing_dates` returns no
pairs at all: `pd.date_range(df.Date.min(), df.Date.max(), freq="D")`
interprets the integral Dates as nanosecond timestamps, so the "daily
calendar" collapses to the single minimum timestamp, which the symbol has.
The spec-modelled daily calendar yields the claimed pairs (CL, 2), (CL, 4).
The same collapse happens for YYYYMMDD integers such as 20240101. -/
theorem missing_dates_collapses_on_gapDF :
    QualityChecks.missing_dates gapDF = [] ∧
    missing_dates_spec gapDF = [("CL", 2), ("CL", 4)] :=
  ⟨by decide, by decide⟩

/-- C1 counterexample: running the full registry with default parameters via
`compute_flags` (which aggregates with `quality_checks.DEFAULT_SEVERITIES`,
where "Duplicate row" is major) on the exact-duplicate two-row dataset gives
`critical_flags = 0` for both rows, not 1 as claimed. -/
theorem scenario_critical_flags_zero :
    (CalcFlagsFull.compute_flags QualityChecks.CHECK_FUNCTIONS
        QualityChecks.DEFAULT_SEVERITIES scenarioDF).map FlaggedRow.critical_flags = [0, 0] ∧
    (CalcFlagsFull.compute_flags QualityChecks.CHECK_FUNCTIONS
        QualityChecks.DEFAULT_SEVERITIES scenarioDF).map FlaggedRow.critical_flags ≠ [1, 1] :=
  ⟨by decide, by decide⟩

/-- C1 (amended): on the exact-duplicate two-row dataset, the full registry
with default parameters flags both rows under "Duplicate row" and under no
other rule; with the rule library's own default severities ("Duplicate row"
= major) each row reports counts (critical, major, minor) = (0, 1, 0), and
with the dashboard's default severities in `app/utils/config.py`
("Duplicate row" = critical) each row reports (1, 0, 0). -/
theorem scenario_flags :
    (CalcFlagsFull.compute_flags QualityChecks.CHECK_FUNCTIONS
        QualityChecks.DEFAULT_SEVERITIES scenarioDF).map
        (fun fr => (fr.ruleFlags.filter (·.2)).map Prod.fst)
      = [["Duplicate row"], ["Duplicate row"]] ∧
    (CalcFlagsFull.compute_flags QualityChecks.CHECK_FUNCTIONS
        QualityChecks.DEFAULT_SEVERITIES scenarioDF).map
        (fun fr => (fr.critical_flags, fr.major_flags, fr.minor_flags))
      = [(0, 1, 0), (0, 1, 0)] ∧
    (CalcFlagsFull.compute_flags QualityChecks.CHECK_FUNCTIONS
        Config.DEFAULT_SEVERITIES scenarioDF).map
        (fun fr => (fr.critical_flags, fr.major_flags, fr.minor_flags))
      = [(1, 0, 0), (1, 0, 0)] :=
  ⟨by decide, by decide, by decide⟩

/-- C5: worst-severity classification is a pure function of the three counts:
critical iff `critical_flags > 0`, else major iff `major_flags > 0`, else
minor iff `minor_flags > 0`, else none; in particular (0, 2, 5) classifies as
major and (0, 0, 0) as none. -/
theorem sev_level_spec (c m mi : Nat) :
    (AppMain._sev_level c m mi = "critical" ↔ 0 < c) ∧
    (AppMain._sev_level c m mi = "major" ↔ c = 0 ∧ 0 < m) ∧
    (AppMain._sev_level c m mi = "minor" ↔ c = 0 ∧ m = 0 ∧ 0 < mi) ∧
    (AppMain._sev_level c m mi = "none" ↔ c = 0 ∧ m = 0 ∧ mi = 0) ∧
    AppMain._sev_level 0 2 5 = "major" ∧
    AppMain._sev_level 0 0 0 = "none" := by
  unfold AppMain._sev_level
  rcases Nat.eq_zero_or_pos c with hc | hc <;>
    rcases Nat.eq_zero_or_pos m with hm | hm <;>
      rcases Nat.eq_zero_or_pos mi with hmi | hmi <;>
        simp +decide [hc, hm, hmi, Nat.pos_iff_ne_zero] <;> omega

/-- C10: `CHECK_FUNCTIONS`, `DESCRIPTIONS` and `DEFAULT_SEVERITIES` in
`quality_checks.py` are keyed by exactly the same 13 rule names (in the same
order), so every registered rule has a description and a default severity. -/
theorem registries_share_rule_names :
    QualityChecks.CHECK_FUNCTIONS.map Prod.fst = QualityChecks.DESCRIPTIONS.map Prod.fst ∧
    QualityChecks.CHECK_FUNCTIONS.map Prod.fst = QualityChecks.DEFAULT_SEVERITIES.map Prod.fst ∧
    (QualityChecks.CHECK_FUNCTIONS.map Prod.fst).length = 13 ∧
    (QualityChecks.CHECK_FUNCTIONS.map Prod.fst).Nodup ∧
    ∀ n ∈ QualityChecks.CHECK_FUNCTIONS.map Prod.fst,
      (QualityChecks.DEFAULT_SEVERITIES.lookup n).isSome ∧
        (QualityChecks.DESCRIPTIONS.lookup n).isSome := by
  exact ⟨rfl, rfl, rfl, by decide, by decide⟩

/-- C7: the rows with `High < Low` are always a subset of the OHLC
integrity violations (`Low > High` is that check's first disjunct). -/
theorem high_low_subset_ohlc (df : List Row) (r : Row)
    (h : r ∈ QualityChecks.high_low_inversion df) :
    r ∈ QualityChecks.ohlc_integrity_violations df := by
  rw [QualityChecks.high_low_inversion, List.mem_filter, decide_eq_true_eq] at h
  rw [QualityChecks.ohlc_integrity_violations, List.mem_filter, decide_eq_true_eq]
  exact ⟨h.1, Or.inl h.2⟩

/-- C7 witness: the inverted bar of `invDF` is flagged by
`high_low_inversion` and hence by `ohlc_integrity_violations`. -/
theorem high_low_subset_ohlc_witness :
    (⟨0, 1, "A", 1, 1, 2, 1, 3, 4⟩ : Row) ∈
      QualityChecks.ohlc_integrity_violations invDF :=
  high_low_subset_ohlc invDF _ (by decide)

/-- C4 counterexample: the dashboard evaluation loop of `app/main.py`
invokes the selected rules with no per-rule `try`/`except`, so on this
concrete two-rule selection where the second rule raises, the aggregation as
a whole fails instead of recording an empty violation set. -/
theorem app_loop_aborts_on_rule_error :
    AppMain.evalLoop
      [("Duplicate row", fun df => Except.ok (dupRule df)), ("Open interest", raisingRule)]
      dupDF = Except.error "KeyError" := by
  rfl

/-- C4 (amended): in the batch aggregator `compute_flags`
(`scripts/calc_flags_full.py`), a rule that raises is recorded exactly like
a rule returning an empty violation set — its flag column is all-False and
every other rule's column is unaffected — so that aggregator never fails
because one rule raised; the dashboard loop of `app/main.py`, by contrast,
does not catch rule errors (see the counterexample). -/
theorem compute_flags_error_isolated
    (pre post : List (String × (List Row → Except String (List Nat))))
    (n : String) (f : List Row → Except String (List Nat))
    (sevs : List (String × Severity)) (df : List Row) (e : String)
    (hf : f df = Except.error e) :
    CalcFlagsFull.compute_flags (pre ++ (n, f) :: post) sevs df
      = CalcFlagsFull.compute_flags (pre ++ (n, fun _ => Except.ok []) :: post) sevs df ∧
    ∀ fr ∈ CalcFlagsFull.compute_flags (pre ++ (n, f) :: post) sevs df,
      (fr.ruleFlags.drop pre.length).head? = some (n, false) := by
  constructor
  · unfold CalcFlagsFull.compute_flags
    simp only [List.map_append, List.map_cons, hf]
    rfl
  · intro fr hfr
    unfold CalcFlagsFull.compute_flags at hfr
    rw [List.mem_map] at hfr
    obtain ⟨r, _, rfl⟩ := hfr
    simp only [List.map_append, List.map_cons, hf]
    rw [List.drop_left' (by simp)]
    simp [CalcFlagsFull.resultIndex]

/-- C4 witness: with the registry fragment ["Duplicate row", raising "Open
interest"] on `dupDF`, the batch aggregator's output equals the output with
the raising rule replaced by an empty-result rule, and the raising rule's
column is all-False. -/
theorem compute_flags_error_isolated_witness :
    (CalcFlagsFull.compute_flags
        ([("Duplicate row", fun df => Except.ok (dupRule df))] ++ ("Open interest", raisingRule) :: [])
        QualityChecks.DEFAULT_SEVERITIES dupDF
      = CalcFlagsFull.compute_flags
        ([("Duplicate row", fun df => Except.ok (dupRule df))] ++ ("Open interest", fun _ => Except.ok []) :: [])
        QualityChecks.DEFAULT_SEVERITIES dupDF) ∧
    ∀ fr ∈ CalcFlagsFull.compute_flags
        ([("Duplicate row", fun df => Except.ok (dupRule df))] ++ ("Open interest", raisingRule) :: [])
        QualityChecks.DEFAULT_SEVERITIES dupDF,
      (fr.ruleFlags.drop 1).head? = some ("Open interest", false) :=
  compute_flags_error_isolated [("Duplicate row", fun df => Except.ok (dupRule df))] []
    "Open interest" raisingRule QualityChecks.DEFAULT_SEVERITIES dupDF "KeyError" rfl

/-- Helper: the three per-severity counts of one flag-matrix row partition
the count of its true flags (each selected rule has exactly one severity
tier under a total severity map). -/
theorem sevCountMap_total_sum (sevMap : String → Severity) (flags : List (String × Bool)) :
    AppMain.sevCountMap sevMap Severity.critical flags
      + AppMain.sevCountMap sevMap Severity.major flags
      + AppMain.sevCountMap sevMap Severity.minor flags
    = (flags.filter (·.2)).length := by
  induction flags with
  | nil => rfl
  | cons nb rest ih =>
    obtain ⟨n, b⟩ := nb
    unfold AppMain.sevCountMap at ih ⊢
    cases b
    · simpa using ih
    · cases h : sevMap n <;> simp [List.filter_cons, h] <;> omega

/-- Helper: a flag list has a true entry iff its true-filtered part is
nonempty. -/
theorem any_snd_iff_filter_pos (l : List (String × Bool)) :
    (l.any (·.2) = true) ↔ 0 < (l.filter (·.2)).length := by
  rw [List.any_eq_true, List.length_pos]
  constructor
  · rintro ⟨x, hx, hpx⟩ hnil
    have : x ∈ l.filter (·.2) := List.mem_filter.2 ⟨hx, hpx⟩
    simp [hnil] at this
  · intro hne
    obtain ⟨x, hx⟩ := List.exists_mem_of_ne_nil _ hne
    exact ⟨x, (List.mem_filter.1 hx).1, (List.mem_filter.1 hx).2⟩

/-- C9: in the dashboard flag matrix, a row has
`critical_flags + major_flags + minor_flags == 0` exactly when it is outside
the union-of-flagged-rows mask (`flags_df.any(axis=1)`), the union mask
holds exactly when at least one of the three counts is nonzero, and the
cleaned dataset is exactly the rows whose three counts sum to zero. -/
theorem flag_sum_zero_iff_not_union
    (selected : List (String × (List Row → List Nat)))
    (sevMap : String → Severity) (df : List Row) :
    (∀ fr ∈ AppMain.flags_df selected sevMap df,
      ((fr.critical_flags + fr.major_flags + fr.minor_flags = 0) ↔
        AppMain.union_mask fr = false) ∧
      (AppMain.union_mask fr = true ↔
        (0 < fr.critical_flags ∨ 0 < fr.major_flags ∨ 0 < fr.minor_flags))) ∧
    AppMain.cleaned_df (AppMain.flags_df selected sevMap df)
      = ((AppMain.flags_df selected sevMap df).filter
          (fun fr => decide (fr.critical_flags + fr.major_flags + fr.minor_flags = 0))).map
          FlaggedRow.row := by
  have key : ∀ fr ∈ AppMain.flags_df selected sevMap df,
      fr.critical_flags + fr.major_flags + fr.minor_flags
        = (fr.ruleFlags.filter (·.2)).length := by
    intro fr hfr
    unfold AppMain.flags_df at hfr
    rw [List.mem_map] at hfr
    obtain ⟨r, _, rfl⟩ := hfr
    exact sevCountMap_total_sum sevMap _
  have main : ∀ fr ∈ AppMain.flags_df selected sevMap df,
      ((fr.critical_flags + fr.major_flags + fr.minor_flags = 0) ↔
        AppMain.union_mask fr = false) ∧
      (AppMain.union_mask fr = true ↔
        (0 < fr.critical_flags ∨ 0 < fr.major_flags ∨ 0 < fr.minor_flags)) := by
    intro fr hfr
    have hsum := key fr hfr
    have hany0 := any_snd_iff_filter_pos fr.ruleFlags
    have hany1 : (fr.ruleFlags.any (·.2) = false) ↔
        ¬ 0 < (fr.ruleFlags.filter (·.2)).length := by
      rw [← hany0, Bool.eq_false_iff]
    unfold AppMain.union_mask
    simp only [Bool.or_eq_false_iff, Bool.or_eq_true, decide_eq_true_eq,
      decide_eq_false_iff_not]
    rw [hany0, hany1]
    omega
  refine ⟨main, ?_⟩
  unfold AppMain.cleaned_df
  congr 1
  refine List.filter_congr (fun fr hfr => ?_)
  have hiff := (main fr hfr).1
  cases hu : AppMain.union_mask fr
  · simp only [hu, Bool.not_false]
    simp [hiff.2 hu]
  · simp only [hu, Bool.not_true]
    have : ¬ (fr.critical_flags + fr.major_flags + fr.minor_flags = 0) := by
      intro h0
      rw [hiff] at h0
      simp [h0] at hu
    simp [this]

/-- C9 witness: with the single selected rule "Duplicate row" (all-critical
severity map) on `dupDF`, the first matrix row has counts (1, 0, 0): its sum
is nonzero exactly as its union mask is true. -/
theorem flag_sum_zero_iff_not_union_witness :
    ((frW.critical_flags + frW.major_flags + frW.minor_flags = 0) ↔
      AppMain.union_mask frW = false) ∧
    (AppMain.union_mask frW = true ↔
      (0 < frW.critical_flags ∨ 0 < frW.major_flags ∨ 0 < frW.minor_flags)) :=
  (flag_sum_zero_iff_not_union selW allCritical dupDF).1 frW (by decide)

/-- C6: `duplicated_rows` returns exactly the rows whose (Date, Symbol) key
occurs at least twice in the input, all copies included (row multiplicities
are preserved), and every returned row's key occurs at least twice within
the output itself. -/
theorem duplicated_rows_spec (df : List Row) (r : Row) :
    (r ∈ QualityChecks.duplicated_rows df ↔
      r ∈ df ∧ 2 ≤ QualityChecks.keyCount df r.Date r.Symbol) ∧
    (2 ≤ QualityChecks.keyCount df r.Date r.Symbol →
      List.count r (QualityChecks.duplicated_rows df) = List.count r df) ∧
    (r ∈ QualityChecks.duplicated_rows df →
      2 ≤ QualityChecks.keyCount (QualityChecks.duplicated_rows df) r.Date r.Symbol) := by
  refine ⟨?_, ?_, ?_⟩
  · rw [QualityChecks.duplicated_rows, List.mem_filter, decide_eq_true_eq]
  · intro h
    exact List.count_filter (by simpa using h)
  · intro h
    rw [QualityChecks.duplicated_rows, List.mem_filter, decide_eq_true_eq] at h
    have hkey : QualityChecks.keyCount (QualityChecks.duplicated_rows df) r.Date r.Symbol
        = QualityChecks.keyCount df r.Date r.Symbol := by
      unfold QualityChecks.keyCount QualityChecks.duplicated_rows
      rw [List.filter_filter]
      congr 1
      refine List.filter_congr (fun a _ => ?_)
      by_cases hk : a.Date = r.Date ∧ a.Symbol = r.Symbol
      · rw [hk.1, hk.2]
        simp [h.2]
      · simp [hk]
    rw [hkey]
    exact h.2

/-- C6 witness: in `dupDF` the key (1, "A") occurs twice; its first copy is
returned, its multiplicity is preserved, and the output still contains the
key twice. -/
theorem duplicated_rows_spec_witness :
    (dupRow ∈ QualityChecks.duplicated_rows dupDF) ∧
    List.count dupRow (QualityChecks.duplicated_rows dupDF) = List.count dupRow dupDF ∧
    2 ≤ QualityChecks.keyCount (QualityChecks.duplicated_rows dupDF) dupRow.Date dupRow.Symbol :=
  ⟨((duplicated_rows_spec dupDF dupRow).1).2 ⟨by decide, by decide⟩,
   (duplicated_rows_spec dupDF dupRow).2.1 (by decide),
   (duplicated_rows_spec dupDF dupRow).2.2
     (((duplicated_rows_spec dupDF dupRow).1).2 ⟨by decide, by decide⟩)⟩

/-- Helper: a `getD` lookup inside the list's length is a member. -/
theorem getD_mem_of_lt (s : List Int) (i : Nat) (h : i < s.length) :
    s.getD i 0 ∈ s := by
  rw [List.getD_eq_getElem s 0 h]
  exact List.getElem_mem h

/-- Helper: `getD` on a `≤`-sorted list is monotone in the index. -/
theorem sorted_getD_mono (s : List Int) (hs : List.Sorted (· ≤ ·) s)
    {i j : Nat} (hij : i ≤ j) (hj : j < s.length) :
    s.getD i 0 ≤ s.getD j 0 := by
  have hi : i < s.length := lt_of_le_of_lt hij hj
  rcases lt_or_eq_of_le hij with hlt | rfl
  · rw [List.getD_eq_getElem s 0 hi, List.getD_eq_getElem s 0 hj]
    have h := List.Sorted.rel_get_of_lt hs
      (show (⟨i, hi⟩ : Fin s.length) < ⟨j, hj⟩ from Fin.mk_lt_mk.2 hlt)
    simpa using h
  · exact le_refl _
  -- for i = j the two lookups coincide

/-- Helper: on a sorted list, linear interpolation at a position inside
`[0, length - 1]` lies between the floor-index and ceil-index values. -/
theorem interpQ_bounds (s : List Int) (hs : List.Sorted (· ≤ ·) s) {pos : ℚ}
    (h0 : 0 ≤ pos) (h1 : pos ≤ (s.length : ℚ) - 1) :
    ((s.getD (⌊pos⌋).toNat 0 : Int) : ℚ) ≤ QualityChecks.interpQ s pos ∧
      QualityChecks.interpQ s pos ≤ ((s.getD (⌈pos⌉).toNat 0 : Int) : ℚ) := by
  have hL0 : (0:ℤ) ≤ ⌊pos⌋ := Int.floor_nonneg.2 h0
  have hceil : ⌈pos⌉ ≤ (s.length : ℤ) - 1 := by
    rw [Int.ceil_le]; push_cast; linarith
  have hLH : ⌊pos⌋ ≤ ⌈pos⌉ := Int.floor_le_ceil pos
  have hHn : (⌈pos⌉).toNat < s.length := by omega
  have hLn : (⌊pos⌋).toNat < s.length := by omega
  have htn : (⌊pos⌋).toNat ≤ (⌈pos⌉).toNat := by omega
  have hab : s.getD (⌊pos⌋).toNat 0 ≤ s.getD (⌈pos⌉).toNat 0 :=
    sorted_getD_mono s hs htn hHn
  have habQ : ((s.getD (⌊pos⌋).toNat 0 : Int) : ℚ) ≤ ((s.getD (⌈pos⌉).toNat 0 : Int) : ℚ) := by
    exact_mod_cast hab
  have hf0 : 0 ≤ pos - (⌊pos⌋ : ℚ) := by
    have := Int.floor_le pos; linarith
  have hf1 : pos - (⌊pos⌋ : ℚ) ≤ 1 := by
    have := Int.lt_floor_add_one pos; push_cast at this; linarith
  unfold QualityChecks.interpQ
  constructor
  · exact le_add_of_nonneg_right (mul_nonneg hf0 (by linarith))
  · have := mul_le_mul_of_nonneg_right hf1 (sub_nonneg.2 habQ)
    linarith

/-- Helper: on a sorted list, linear interpolation is monotone in the
position over `[0, length - 1]`. -/
theorem interpQ_mono (s : List Int) (hs : List.Sorted (· ≤ ·) s) {p1 p2 : ℚ}
    (h0 : 0 ≤ p1) (h12 : p1 ≤ p2) (h2 : p2 ≤ (s.length : ℚ) - 1) :
    QualityChecks.interpQ s p1 ≤ QualityChecks.interpQ s p2 := by
  have h01 : 0 ≤ p2 := le_trans h0 h12
  have h1 : p1 ≤ (s.length : ℚ) - 1 := le_trans h12 h2
  have hb1 := interpQ_bounds s hs h0 h1
  have hb2 := interpQ_bounds s hs h01 h2
  have hceil1 : ⌈p1⌉ ≤ (s.length : ℤ) - 1 := by
    rw [Int.ceil_le]; push_cast; linarith
  have hceil2 : ⌈p2⌉ ≤ (s.length : ℤ) - 1 := by
    rw [Int.ceil_le]; push_cast; linarith
  have hfl1 : (0:ℤ) ≤ ⌊p1⌋ := Int.floor_nonneg.2 h0
  have hfl2 : (0:ℤ) ≤ ⌊p2⌋ := Int.floor_nonneg.2 h01
  have hLH1 : ⌊p1⌋ ≤ ⌈p1⌉ := Int.floor_le_ceil p1
  have hLH2 : ⌊p2⌋ ≤ ⌈p2⌉ := Int.floor_le_ceil p2
  by_cases hc : ⌈p1⌉ ≤ ⌊p2⌋
  · refine le_trans hb1.2 (le_trans ?_ hb2.1)
    have hL2n : (⌊p2⌋).toNat < s.length := by omega
    have htn : (⌈p1⌉).toNat ≤ (⌊p2⌋).toNat := by omega
    exact_mod_cast sorted_getD_mono s hs htn hL2n
  · push_neg at hc
    have hflle : ⌊p1⌋ ≤ ⌊p2⌋ := Int.floor_le_floor h12
    have hceilfl : ⌈p1⌉ ≤ ⌊p1⌋ + 1 := Int.ceil_le_floor_add_one p1
    have heq : ⌊p2⌋ = ⌊p1⌋ := by omega
    rcases lt_or_eq_of_le (Int.floor_le p1) with hfrac | hint
    · have hC1 : ⌈p1⌉ = ⌊p1⌋ + 1 := by
        have := Int.lt_ceil.2 hfrac
        omega
      have hfrac2 : (⌊p2⌋ : ℚ) < p2 := by
        rw [heq]; exact lt_of_lt_of_le hfrac h12
      have hC2 : ⌈p2⌉ = ⌊p2⌋ + 1 := by
        have h1' := Int.lt_ceil.2 hfrac2
        have h2' := Int.ceil_le_floor_add_one p2
        omega
      unfold QualityChecks.interpQ
      rw [hC1, hC2, heq]
      have hHn : ((⌊p1⌋ + 1).toNat) < s.length := by omega
      have htn : (⌊p1⌋).toNat ≤ (⌊p1⌋ + 1).toNat := by omega
      have hab : ((s.getD (⌊p1⌋).toNat 0 : Int) : ℚ)
          ≤ ((s.getD ((⌊p1⌋ + 1).toNat) 0 : Int) : ℚ) := by
        exact_mod_cast sorted_getD_mono s hs htn hHn
      have hmul := mul_le_mul_of_nonneg_right
        (sub_le_sub_right h12 ((⌊p1⌋ : ℚ))) (sub_nonneg.2 hab)
      linarith
    · have hip1 : QualityChecks.interpQ s p1 = ((s.getD (⌊p1⌋).toNat 0 : Int) : ℚ) := by
        unfold QualityChecks.interpQ
        rw [← hint]
        simp only [Int.floor_intCast]
        ring
      rw [hip1, show (⌊p1⌋ : ℤ) = ⌊p2⌋ from heq.symm]
      exact hb2.1

/-- Helper: the position `q * (n - 1)` of `quantileQ` stays inside
`[0, n - 1]` for `q ∈ [0, 1]` and a nonempty list. -/
theorem quantile_pos_bounds (l : List Int) (hne : l ≠ []) {q : ℚ}
    (h0 : 0 ≤ q) (h1 : q ≤ 1) :
    0 ≤ q * ((l.length : ℚ) - 1) ∧
      q * ((l.length : ℚ) - 1) ≤ (l.length : ℚ) - 1 := by
  have hn1 : 1 ≤ l.length := List.length_pos.2 hne
  have hnQ : (0:ℚ) ≤ (l.length : ℚ) - 1 := by
    have : (1:ℚ) ≤ (l.length : ℚ) := by exact_mod_cast hn1
    linarith
  constructor
  · exact mul_nonneg h0 hnQ
  · calc q * ((l.length : ℚ) - 1) ≤ 1 * ((l.length : ℚ) - 1) :=
        mul_le_mul_of_nonneg_right h1 hnQ
    _ = (l.length : ℚ) - 1 := one_mul _

/-- Helper: the pandas quantile of a nonempty int series is monotone in the
quantile level. -/
theorem quantileQ_mono (l : List Int) (hne : l ≠ []) {q1 q2 : ℚ}
    (h0 : 0 ≤ q1) (h12 : q1 ≤ q2) (h2 : q2 ≤ 1) :
    QualityChecks.quantileQ l q1 ≤ QualityChecks.quantileQ l q2 := by
  unfold QualityChecks.quantileQ
  have hs := List.sorted_insertionSort (· ≤ ·) l
  have hlen : (List.insertionSort (· ≤ ·) l).length = l.length :=
    (List.perm_insertionSort (· ≤ ·) l).length_eq
  have hb1 := quantile_pos_bounds l hne h0 (le_trans h12 h2)
  have hb2 := quantile_pos_bounds l hne (le_trans h0 h12) h2
  refine interpQ_mono _ hs hb1.1 ?_ ?_
  · have hn1 : 1 ≤ l.length := List.length_pos.2 hne
    have hnQ : (0:ℚ) ≤ (l.length : ℚ) - 1 := by
      have : (1:ℚ) ≤ (l.length : ℚ) := by exact_mod_cast hn1
      linarith
    exact mul_le_mul_of_nonneg_right h12 hnQ
  · rw [hlen]; exact hb2.2

/-- Helper: the pandas quantile of a nonempty constant int series is that
constant. -/
theorem quantileQ_const (l : List Int) (v : Int) (hne : l ≠ [])
    (hv : ∀ x ∈ l, x = v) {q : ℚ} (h0 : 0 ≤ q) (h1 : q ≤ 1) :
    QualityChecks.quantileQ l q = (v : ℚ) := by
  unfold QualityChecks.quantileQ QualityChecks.interpQ
  have hs := List.sorted_insertionSort (· ≤ ·) l
  have hlen : (List.insertionSort (· ≤ ·) l).length = l.length :=
    (List.perm_insertionSort (· ≤ ·) l).length_eq
  have hmem : ∀ x ∈ List.insertionSort (· ≤ ·) l, x = v := fun x hx =>
    hv x ((List.perm_insertionSort (· ≤ ·) l).mem_iff.1 hx)
  have hb := quantile_pos_bounds l hne h0 h1
  set pos := q * ((l.length : ℚ) - 1) with hpos
  have hL0 : (0:ℤ) ≤ ⌊pos⌋ := Int.floor_nonneg.2 hb.1
  have hceil : ⌈pos⌉ ≤ ((List.insertionSort (· ≤ ·) l).length : ℤ) - 1 := by
    rw [Int.ceil_le]; push_cast [hlen]; linarith [hb.2]
  have hLH : ⌊pos⌋ ≤ ⌈pos⌉ := Int.floor_le_ceil pos
  have hHn : (⌈pos⌉).toNat < (List.insertionSort (· ≤ ·) l).length := by omega
  have hLn : (⌊pos⌋).toNat < (List.insertionSort (· ≤ ·) l).length := by omega
  have ha := hmem _ (getD_mem_of_lt _ _ hLn)
  have hbv := hmem _ (getD_mem_of_lt _ _ hHn)
  rw [ha, hbv]
  ring

/-- Helper: the pandas quantile of a nonempty series of strictly positive
ints is strictly positive. -/
theorem quantileQ_pos (l : List Int) (hne : l ≠ []) (hpos : ∀ x ∈ l, 0 < x)
    {q : ℚ} (h0 : 0 ≤ q) (h1 : q ≤ 1) :
    0 < QualityChecks.quantileQ l q := by
  have hs := List.sorted_insertionSort (· ≤ ·) l
  have hlen : (List.insertionSort (· ≤ ·) l).length = l.length :=
    (List.perm_insertionSort (· ≤ ·) l).length_eq
  have hb := quantile_pos_bounds l hne h0 h1
  have hlow := (interpQ_bounds (List.insertionSort (· ≤ ·) l) hs hb.1
    (by rw [hlen]; exact hb.2)).1
  have hL0 : (0:ℤ) ≤ ⌊q * ((l.length : ℚ) - 1)⌋ := Int.floor_nonneg.2 hb.1
  have hceil : ⌈q * ((l.length : ℚ) - 1)⌉ ≤ ((List.insertionSort (· ≤ ·) l).length : ℤ) - 1 := by
    rw [Int.ceil_le]; push_cast [hlen]; linarith [hb.2]
  have hLH : ⌊q * ((l.length : ℚ) - 1)⌋ ≤ ⌈q * ((l.length : ℚ) - 1)⌉ :=
    Int.floor_le_ceil _
  have hLn : (⌊q * ((l.length : ℚ) - 1)⌋).toNat < (List.insertionSort (· ≤ ·) l).length := by
    omega
  have hav : 0 < (List.insertionSort (· ≤ ·) l).getD (⌊q * ((l.length : ℚ) - 1)⌋).toNat 0 :=
    hpos _ ((List.perm_insertionSort (· ≤ ·) l).mem_iff.1 (getD_mem_of_lt _ _ hLn))
  have : (0:ℚ) < (((List.insertionSort (· ≤ ·) l).getD
      (⌊q * ((l.length : ℚ) - 1)⌋).toNat 0 : Int) : ℚ) := by exact_mod_cast hav
  calc (0:ℚ) < _ := this
  _ ≤ QualityChecks.quantileQ l q := hlow

/-- C8: for multipliers `k1 < k2`, every row flagged by
`iqr_price_outliers` at `k2` is flagged at `k1` (the tighter bound flags at
least as many rows): the interval endpoints move monotonically with the
multiplier because `iqr = q3 - q1 ≥ 0`. -/
theorem iqr_outliers_superset (df : List Row) (k1 k2 : ℚ) (hk : k1 < k2) :
    ∀ r ∈ QualityChecks.iqr_price_outliers df k2,
      r ∈ QualityChecks.iqr_price_outliers df k1 := by
  intro r hr
  unfold QualityChecks.iqr_price_outliers at hr ⊢
  rw [List.mem_flatMap] at hr ⊢
  obtain ⟨sym, hsym, hmem⟩ := hr
  refine ⟨sym, hsym, ?_⟩
  unfold QualityChecks.iqrGroupOutliers at hmem ⊢
  rw [List.mem_filter] at hmem ⊢
  refine ⟨hmem.1, ?_⟩
  have hgrpne : (df.filter (fun x => decide (x.Symbol = sym))).map Row.Close ≠ [] := by
    intro hnil
    rw [List.map_eq_nil_iff] at hnil
    rw [hnil] at hmem
    exact (List.not_mem_nil r) hmem.1
  have hq := quantileQ_mono _ hgrpne
    (by norm_num : (0:ℚ) ≤ 1/4) (by norm_num : (1:ℚ)/4 ≤ 3/4) (by norm_num : (3:ℚ)/4 ≤ 1)
  have hiqr : 0 ≤ QualityChecks.quantileQ
        ((df.filter (fun x => decide (x.Symbol = sym))).map Row.Close) (3/4)
      - QualityChecks.quantileQ
        ((df.filter (fun x => decide (x.Symbol = sym))).map Row.Close) (1/4) := by
    linarith
  have hmul := mul_le_mul_of_nonneg_right (le_of_lt hk) hiqr
  simp only [Bool.or_eq_true, decide_eq_true_eq] at hmem ⊢
  rcases hmem.2 with hlow | hhigh
  · left; linarith
  · right; linarith

/-- C8 witness: in `iqrDF` (Closes 10, 10, 10, 100) the last row is an IQR
outlier at multiplier 2, hence also at the tighter multiplier 1. -/
theorem iqr_outliers_superset_witness :
    (⟨3, 4, "A", 100, 100, 100, 100, 1, 1⟩ : Row) ∈
      QualityChecks.iqr_price_outliers iqrDF 1 :=
  iqr_outliers_superset iqrDF 1 2 (by decide) _ (by decide)

/-- Helper: every element of `posVolumes grp` is strictly positive. -/
theorem posVolumes_pos (grp : List Row) :
    ∀ x ∈ QualityChecks.posVolumes grp, 0 < x := by
  intro x hx
  unfold QualityChecks.posVolumes at hx
  rw [List.mem_map] at hx
  obtain ⟨p, hp, rfl⟩ := hx
  exact of_decide_eq_true (List.mem_filter.1 hp).2

/-- C3 counterexample: the claim fails on `eda_utils.volume_anomalies` (also
cited as a source, and the copy the Outliers page calls).  On `volDF`
(volumes 0, 0, 5, 5 for one symbol) with factor 3/2 > 1 every strictly
positive volume equals 5, so the claim demands an empty extreme-volume set;
`eda_utils` thresholds on the median over ALL volumes (5/2), flagging rows
2 and 3. -/
theorem eda_volume_extreme_cex :
    (1 : ℚ) < 3/2 ∧
    (∀ x ∈ volDF, 0 < x.Volume → x.Volume = 5) ∧
    (EdaUtils.volume_anomalies_extreme volDF (3/2)).map Row.idx = [2, 3] ∧
    (EdaUtils.volume_anomalies_extreme volDF (3/2)).map Row.idx ≠ [] :=
  ⟨by decide, by decide, by decide, by decide⟩

/-- C3 (amended): the extreme-volume component of
`quality_checks.volume_anomalies` flags exactly the rows whose symbol has a
nonempty strictly-positive-volume series and whose Volume exceeds `factor`
times the per-symbol median of those strictly positive volumes (so symbols
with no positive volume produce no flags), and for `factor > 1` a symbol
whose positive volumes all share one value contributes no flags.  The copy
in `eda_utils.volume_anomalies`, used by the Outliers dashboard page,
instead uses the median over all volumes including zeros and violates the
property (see the counterexample). -/
theorem volume_extreme_spec (df : List Row) (factor : ℚ) :
    (∀ r, r ∈ QualityChecks.volume_anomalies_extreme df factor ↔
      (r ∈ df ∧
        QualityChecks.posVolumes (df.filter (fun x => decide (x.Symbol = r.Symbol))) ≠ [] ∧
        QualityChecks.medianQ (QualityChecks.posVolumes
            (df.filter (fun x => decide (x.Symbol = r.Symbol)))) * factor
          < (r.Volume : ℚ))) ∧
    (1 < factor → ∀ v : Int, 0 < v → ∀ r ∈ df,
      (∀ x ∈ df, x.Symbol = r.Symbol → 0 < x.Volume → x.Volume = v) →
      r ∉ QualityChecks.volume_anomalies_extreme df factor) := by
  have hchar : ∀ r, r ∈ QualityChecks.volume_anomalies_extreme df factor ↔
      (r ∈ df ∧
        QualityChecks.posVolumes (df.filter (fun x => decide (x.Symbol = r.Symbol))) ≠ [] ∧
        QualityChecks.medianQ (QualityChecks.posVolumes
            (df.filter (fun x => decide (x.Symbol = r.Symbol)))) * factor
          < (r.Volume : ℚ)) := by
    intro r
    constructor
    · intro hr
      unfold QualityChecks.volume_anomalies_extreme at hr
      rw [List.mem_flatMap] at hr
      obtain ⟨sym, _, hmem⟩ := hr
      unfold QualityChecks.extremeGroupRows at hmem
      by_cases hpv : QualityChecks.posVolumes (df.filter (fun x => decide (x.Symbol = sym))) = []
      · rw [if_pos hpv] at hmem
        exact absurd hmem (List.not_mem_nil r)
      · rw [if_neg hpv] at hmem
        by_cases hm : QualityChecks.medianQ
            (QualityChecks.posVolumes (df.filter (fun x => decide (x.Symbol = sym)))) = 0
        · rw [if_pos hm] at hmem
          exact absurd hmem (List.not_mem_nil r)
        · rw [if_neg hm] at hmem
          rw [List.mem_filter, decide_eq_true_eq] at hmem
          have hrgrp := List.mem_filter.1 hmem.1
          have hrsym : r.Symbol = sym := of_decide_eq_true hrgrp.2
          rw [hrsym]
          exact ⟨hrgrp.1, hpv, hmem.2⟩
    · rintro ⟨hrdf, hpv, hlt⟩
      unfold QualityChecks.volume_anomalies_extreme
      rw [List.mem_flatMap]
      refine ⟨r.Symbol, ?_, ?_⟩
      · unfold QualityChecks.symbolKeys
        rw [List.mem_dedup, List.mem_map]
        exact ⟨r, hrdf, rfl⟩
      · unfold QualityChecks.extremeGroupRows
        rw [if_neg hpv]
        have hmpos : 0 < QualityChecks.medianQ
            (QualityChecks.posVolumes (df.filter (fun x => decide (x.Symbol = r.Symbol)))) := by
          unfold QualityChecks.medianQ
          exact quantileQ_pos _ hpv (posVolumes_pos _) (by norm_num) (by norm_num)
        rw [if_neg (ne_of_gt hmpos)]
        rw [List.mem_filter, decide_eq_true_eq]
        exact ⟨List.mem_filter.2 ⟨hrdf, by simp⟩, hlt⟩
  refine ⟨hchar, ?_⟩
  intro hfac v hv r hrdf hconst hr
  obtain ⟨-, hpv, hlt⟩ := (hchar r).1 hr
  have hallv : ∀ x ∈ QualityChecks.posVolumes
      (df.filter (fun y => decide (y.Symbol = r.Symbol))), x = v := by
    intro x hx
    unfold QualityChecks.posVolumes at hx
    rw [List.mem_map] at hx
    obtain ⟨p, hp, rfl⟩ := hx
    have hppos : 0 < p.Volume := of_decide_eq_true (List.mem_filter.1 hp).2
    have hpgrp := List.mem_filter.1 (List.mem_filter.1 hp).1
    exact hconst p hpgrp.1 (of_decide_eq_true hpgrp.2) hppos
  have hmv : QualityChecks.medianQ (QualityChecks.posVolumes
      (df.filter (fun x => decide (x.Symbol = r.Symbol)))) = (v : ℚ) := by
    unfold QualityChecks.medianQ
    exact quantileQ_const _ v hpv hallv (by norm_num) (by norm_num)
  rw [hmv] at hlt
  have hvQ : (0:ℚ) < (v : ℚ) := by exact_mod_cast hv
  rcases le_or_lt r.Volume 0 with h0 | h0
  · have h0Q : (r.Volume : ℚ) ≤ 0 := by exact_mod_cast h0
    nlinarith
  · have hrv : r.Volume = v := hconst r hrdf rfl h0
    rw [hrv] at hlt
    nlinarith

/-- C3 witness: on `volDF` (all positive volumes equal 5) with factor
3/2 > 1, the third row is not flagged by the `quality_checks` extreme-volume
component. -/
theorem volume_extreme_spec_witness :
    (⟨2, 3, "A", 10, 10, 10, 10, 5, 0⟩ : Row) ∉
      QualityChecks.volume_anomalies_extreme volDF (3/2) :=
  (volume_extreme_spec volDF (3/2)).2 (by decide) 5 (by decide)
    ⟨2, 3, "A", 10, 10, 10, 10, 5, 0⟩ (by decide) (by decide)

end DataQuality
